import Mathlib

/-!
Shallow embedding of the dmshx multi-host SSH orchestrator
(src/internal/ssh/ssh.go and the SFTP upload/download worker file).

External effects (reading the key file, dialing, opening sessions, the
remote copy loop, timers) are modelled by explicit environment records:
each fallible external step is an `Option String` (`none` means the step
succeeded, `some e` means it failed with rendered error message `e`), and
each timeout race carries a boolean saying whether the `done` channel
fired before the `time.After` timer.  Every worker then becomes a pure
function from its environment to the `ResultRecord` it emits plus the
side effects (signals sent, files created/removed) it performs.
-/

namespace Dmshx

/-- Single-quote character (ASCII 39). -/
def squoteC : Char := Char.ofNat 39

/-- Backslash character (ASCII 92). -/
def bslashC : Char := Char.ofNat 92

/-- One single-quote, as a string. -/
def squote : String := String.mk [squoteC]

/-- The four-character escape sequence quote backslash quote quote that Go
writes as the replacement in `strings.ReplaceAll(cmd, sq, sq bs sq sq)`. -/
def escSeq : String := String.mk [squoteC, bslashC, squoteC, squoteC]

/-! ### Go `strconv.Atoi`

`strconv.Atoi(s)` accepts an optional leading sign followed by one or more
decimal digits, and errors out when the value does not fit a 64-bit int. -/

/-- Value of a non-empty all-digit string, `none` otherwise. -/
def digitsVal : List Char → Option Nat
  | [] => none
  | cs => if cs.all Char.isDigit
          then some (cs.foldl (fun a c => a * 10 + (c.toNat - 48)) 0)
          else none

/-- Embedding of Go `strconv.Atoi`: optional sign, mandatory digits,
64-bit-range check; `none` models a non-nil error. -/
def atoi (s : String) : Option Int :=
  let signDigits : Bool × List Char :=
    match s.data with
    | '-' :: rest => (true, rest)
    | '+' :: rest => (false, rest)
    | cs => (false, cs)
  match digitsVal signDigits.2 with
  | none => none
  | some n =>
    let v : Int := if signDigits.1 then -(n : Int) else (n : Int)
    if v < -(2 ^ 63) ∨ 2 ^ 63 - 1 < v then none else some v

/-! ### Go `strings.Split` with a single-character separator -/

/-- Prepend a character to the first piece of a split result. -/
def consHead (c : Char) : List (List Char) → List (List Char)
  | [] => [[c]]
  | p :: ps => (c :: p) :: ps

/-- Embedding of Go `strings.Split(s, sep)` for a one-character separator:
the list of maximal pieces between occurrences of `sep` (always non-empty;
`Split("", sep) = [""]`). -/
def goSplitChar (sep : Char) : List Char → List (List Char)
  | [] => [[]]
  | c :: rest =>
    if c = sep then [] :: goSplitChar sep rest
    else consHead c (goSplitChar sep rest)

/-- Go `strings.Split(host, colon)` at the string level. -/
def splitColon (s : String) : List String :=
  (goSplitChar ':' s.data).map String.mk

/-- Host/port resolution shared verbatim by all three workers
(ssh.go lines 34-43 and the identical blocks in the upload/download
workers): split on the colon, take the first piece as the hostname, and
override the configured default port only when there is a second piece
that `Atoi` parses. -/
def parseHostPort (host : String) (defaultPort : Int) : String × Int :=
  let hostPort := splitColon host
  let hostname := hostPort.headD ""
  let port :=
    if hostPort.length > 1 then
      match atoi (hostPort.getD 1 "") with
      | some p => p
      | none => defaultPort
    else defaultPort
  (hostname, port)

/-! ### Data model (pkg/models.go) -/

/-- The fields of `pkg.Config` that the SSH/SFTP workers read. -/
structure Config where
  port : Int
  user : String
  key : String
  password : String
  cmd : String
  timeout : Int
  execUser : String
  uploadFile : String
  uploadDir : String
  uploadPermission : Int
  remotePath : String
  localPath : String
  jsonOutput : Bool
  deriving Repr, DecidableEq

/-- Record type `pkg.CmdResult` (a field that a given exit path leaves unset keeps its
Go zero value, the empty string). -/
structure CmdResult where
  host : String
  type : String
  status : String
  stdout : String := ""
  stderr : String := ""
  duration : String := ""
  error : String := ""
  sshUser : String := ""
  execUser : String := ""
  actualCmd : String := ""
  deriving Repr, DecidableEq

/-- Record type `pkg.UploadResult`. -/
structure UploadResult where
  host : String
  type : String
  status : String
  localFile : String := ""
  remoteFile : String := ""
  size : Int := 0
  duration : String := ""
  error : String := ""
  sshUser : String := ""
  timeoutSetting : String := ""
  deriving Repr, DecidableEq

/-- Record type `pkg.DownloadResult`. -/
structure DownloadResult where
  host : String
  type : String
  status : String
  remotePath : String := ""
  localPath : String := ""
  size : Int := 0
  md5 : String := ""
  duration : String := ""
  error : String := ""
  sshUser : String := ""
  timestamp : String := ""
  deriving Repr, DecidableEq

/-! ### Command execution (src/internal/ssh/ssh.go, `ExecuteCommands`) -/

/-- Embedding of `escapeCommand` (ssh.go lines 217-221): Go
`strings.ReplaceAll(cmd, sq, sq bs sq sq)` — every single quote becomes
the four-character sequence quote backslash quote quote; a one-character
pattern makes `ReplaceAll` a per-character rewrite. -/
def escapeCommand (cmd : String) : String :=
  String.mk (cmd.data.foldr
    (fun c acc => if c = squoteC then escSeq.data ++ acc else c :: acc) [])

/-- The command actually started on the remote side (ssh.go lines 136-144):
wrapped in `su - user -c ...` exactly when an execution user is configured
and differs from the connection user. -/
def cmdToExecute (config : Config) : String :=
  if config.execUser ≠ "" ∧ config.execUser ≠ config.user then
    "su - " ++ config.execUser ++ " -c " ++ squote
      ++ escapeCommand config.cmd ++ squote
  else config.cmd

/-- The `execUser` recorded in the result (ssh.go lines 138-144). -/
def execUserOf (config : Config) : String :=
  if config.execUser ≠ "" ∧ config.execUser ≠ config.user then config.execUser
  else config.user

/-- The timeout error message synthesized at ssh.go line 177. -/
def cmdTimeoutMsg (t : Int) : String :=
  "command timed out after " ++ toString t ++ " seconds"

/-- Per-host external world for one command-execution worker.  Each
`Option String` is the outcome of the corresponding external call
(`none` = success); `doneInTime` says whether `session.Wait()` delivered
on the `done` channel before the `time.After` timer fired (it is only
consulted when a timer is armed). -/
structure CmdEnv where
  keyReadErr : Option String := none
  keyParseErr : Option String := none
  dialErr : Option String := none
  sessionErr : Option String := none
  startErr : Option String := none
  waitErr : Option String := none
  doneInTime : Bool := true
  stdout : String := ""
  stderr : String := ""
  duration : String := ""
  deriving Repr, DecidableEq

/-- The `select`-based timeout race of ssh.go lines 169-182: when
`config.Timeout > 0` a timer is armed and losing the race yields the
synthesized timeout error plus a SIGTERM to the session; otherwise the
worker blocks on the `done` channel unconditionally.  Returns
`(cmdErr, sigtermSent)`. -/
def cmdRace (config : Config) (env : CmdEnv) : Option String × Bool :=
  if config.timeout > 0 then
    if env.doneInTime then (env.waitErr, false)
    else (some (cmdTimeoutMsg config.timeout), true)
  else (env.waitErr, false)

/-- A command worker's observable outcome: the record it hands to the
logger/output sink, and whether it sent SIGTERM to the remote session. -/
structure CmdEffects where
  record : CmdResult
  sigtermSent : Bool
  deriving Repr, DecidableEq

/-- The per-host goroutine body of `ExecuteCommands` (ssh.go lines 31-211):
a fail-fast chain through key read/parse, auth-method selection, dial,
session open and command start, then the timeout race and the final
record. -/
def cmdWorker (config : Config) (host : String) (env : CmdEnv) : CmdEffects :=
  let authErr : Option String :=
    if config.key ≠ "" then
      match env.keyReadErr with
      | some e => some e
      | none =>
        match env.keyParseErr with
        | some e => some e
        | none => none
    else if config.password ≠ "" then none
    else some "No authentication method provided. Specify either -key or -password"
  match authErr with
  | some e => ⟨{ host := host, type := "cmd", status := "error", error := e }, false⟩
  | none =>
    match env.dialErr with
    | some e => ⟨{ host := host, type := "cmd", status := "error", error := e }, false⟩
    | none =>
      match env.sessionErr with
      | some e =>
        ⟨{ host := host, type := "cmd", status := "error", error := e,
           sshUser := config.user, execUser := config.user }, false⟩
      | none =>
        match env.startErr with
        | some e =>
          ⟨{ host := host, type := "cmd", status := "error", error := e,
             sshUser := config.user, execUser := execUserOf config,
             actualCmd := cmdToExecute config }, false⟩
        | none =>
          let race := cmdRace config env
          let status := match race.1 with | some _ => "error" | none => "success"
          let errMsg := match race.1 with | some e => e | none => ""
          ⟨{ host := host, type := "cmd", status := status,
             stdout := env.stdout, stderr := env.stderr,
             duration := env.duration, error := errMsg,
             sshUser := config.user, execUser := execUserOf config,
             actualCmd := cmdToExecute config }, race.2⟩

/-- Embedding of `ExecuteCommands` (ssh.go lines 26-215): one goroutine per element of
`hosts`, each producing exactly one record; `wg.Wait` joins them all, so
the invocation's emitted records are the per-host worker outcomes.  The
environment is a function of the host: a worker's external world depends
only on its own host. -/
def ExecuteCommands (hosts : List String) (config : Config)
    (env : String → CmdEnv) : List CmdEffects :=
  hosts.map (fun host => cmdWorker config host (env host))

/-! ### Path helpers (Go `path/filepath`, for clean slash-separated paths) -/

/-- Go `strings.TrimSuffix(s, slash)`: drop one trailing slash when present. -/
def trimSlashSuffix (s : String) : String :=
  match s.data.reverse with
  | '/' :: rest => String.mk rest.reverse
  | _ => s

/-- Go `filepath.Base` for clean paths: the empty path gives a dot, an
all-slash path gives the root, otherwise the last slash-separated piece
after trailing slashes are dropped. -/
def basePath (p : String) : String :=
  if p = "" then "."
  else
    let trimmed := String.mk ((p.data.reverse.dropWhile (· = '/')).reverse)
    if trimmed = "" then "/"
    else ((goSplitChar '/' trimmed.data).map String.mk).getLastD trimmed

/-- Go `filepath.Join(a, b)` for clean components. -/
def joinPath (a b : String) : String :=
  if a = "" then b else a ++ "/" ++ b

/-! ### `createRemoteDir` (upload/download worker file, lines 549-569)

The remote filesystem is modelled as the list of paths whose `Stat`
succeeds.  `Mkdir` on a path the algorithm reaches (one whose `Stat` just
failed) is modelled as succeeding and adding the path.  The source
recurses on `filepath.Dir(dirPath)`; for the clean slash-separated paths
involved, `filepath.Dir` is exactly "drop the last slash-separated
segment", with a resulting empty segment list rendering as a dot and a
lone empty segment rendering as the root — the two guards that stop the
recursion.  We therefore recurse over the segment list (the string passed
to `Stat`/`Mkdir` is the segments rejoined with slashes), which is the
same recursion with its measure made explicit. -/

/-- Segments rejoined into the path string handed to `Stat`/`Mkdir`
(slash-interleaved concatenation). -/
def joinSegs : List String → String
  | [] => ""
  | [s] => s
  | s :: rest => s ++ "/" ++ joinSegs rest

/-- Embedding of `createRemoteDir`, recursing on the parent segment list.  Returns the
final remote filesystem together with the ordered list of `Mkdir` calls
issued (the model's `Mkdir` always succeeds, so the source's error
returns cannot fire and the call always ends in the final `Mkdir`'s
success or the early `Stat` success). -/
def createRemoteDirSegs (fs : List String) (segs : List String) :
    List String × List String :=
  let dirPath := joinSegs segs
  if fs.contains dirPath then (fs, [])
  else
    let rec1 :=
      if h : segs.dropLast ≠ [] ∧ segs.dropLast ≠ [""] then
        createRemoteDirSegs fs segs.dropLast
      else (fs, [])
    (dirPath :: rec1.1, rec1.2 ++ [dirPath])
  termination_by segs.length
  decreasing_by
    have hne : segs ≠ [] := fun hs => h.1 (by simp [hs])
    have hpos : 0 < segs.length := List.length_pos.mpr hne
    simp only [List.length_dropLast]
    omega

/-- Embedding of `createRemoteDir(sftpClient, dirPath)`: trim one trailing slash, then
run the recursive check/create. -/
def createRemoteDir (fs : List String) (dirPath : String) :
    List String × List String :=
  createRemoteDirSegs fs ((trimSlashSuffix dirPath).data |> goSplitChar '/' |>.map String.mk)

/-! ### Upload (upload/download worker file, `UploadFiles`, lines 276-546) -/

/-- The timeout error synthesized in the upload race (line 486),
`%d` rendered. -/
def uploadTimeoutMsg (t : Int) : String :=
  "文件上传超时，超过 " ++ toString t ++ " 秒"

/-- The `TimeoutSetting` string computed by the workers. -/
def timeoutSettingOf (t : Int) : String :=
  if t > 0 then toString t ++ "秒" else "无限制"

/-- Invocation-level upload precheck (lines 280-286): `os.Stat` on the
local source file, its size captured once before any fan-out. -/
structure UploadPre where
  statErr : Option String := none
  fileSize : Int := 0
  deriving Repr, DecidableEq

/-- Per-host external world for one upload worker. -/
structure UploadEnv where
  keyReadErr : Option String := none
  keyParseErr : Option String := none
  dialErr : Option String := none
  sftpErr : Option String := none
  mkdirErr : Option String := none
  openLocalErr : Option String := none
  createRemoteErr : Option String := none
  copyErr : Option String := none
  copyDoneInTime : Bool := true
  chmodErr : Option String := none
  duration : String := ""
  deriving Repr, DecidableEq

/-- The upload timeout race (lines 480-491): with a positive timeout the
copy result is raced against `time.After`, otherwise the worker waits on
`done` unconditionally. -/
def uploadRace (config : Config) (env : UploadEnv) : Option String :=
  if config.timeout > 0 then
    if env.copyDoneInTime then env.copyErr
    else some (uploadTimeoutMsg config.timeout)
  else env.copyErr

/-- An upload worker's observable outcome: its record, whether the
deferred close of the created remote file handle ran, and whether a
chmod-failure warning was printed to standard error. -/
structure UploadEffects where
  record : UploadResult
  remoteHandleClosed : Bool
  chmodWarning : Bool
  deriving Repr, DecidableEq

/-- The remote destination path computed once before fan-out
(lines 294-301): the target directory with a slash appended when missing,
plus the base name of the local file. -/
def remoteFileOf (config : Config) : String :=
  let remoteDir :=
    if config.uploadDir.data.reverse.headD ' ' = '/' then config.uploadDir
    else config.uploadDir ++ "/"
  remoteDir ++ basePath config.uploadFile

/-- The per-host goroutine body of `UploadFiles` (lines 305-542):
fail-fast through auth, dial, SFTP open, remote-directory creation,
local open and remote create; then the raced stream copy; a copy failure
is terminal, while a chmod failure after a completed copy only prints a
warning and the success record is emitted regardless. -/
def uploadWorker (config : Config) (pre : UploadPre) (host : String)
    (env : UploadEnv) : UploadEffects :=
  let localFile := config.uploadFile
  let remoteFile := remoteFileOf config
  let errRec : String → UploadResult := fun e =>
    { host := host, type := "upload", status := "error",
      localFile := localFile, remoteFile := remoteFile, error := e,
      sshUser := config.user }
  let authErr : Option String :=
    if config.key ≠ "" then
      match env.keyReadErr with
      | some e => some e
      | none =>
        match env.keyParseErr with
        | some e => some e
        | none => none
    else if config.password ≠ "" then none
    else some "No authentication method provided. Specify either -key or -password"
  match authErr with
  | some e => ⟨errRec e, false, false⟩
  | none =>
    match env.dialErr with
    | some e => ⟨errRec e, false, false⟩
    | none =>
      match env.sftpErr with
      | some e => ⟨errRec e, false, false⟩
      | none =>
        match env.mkdirErr with
        | some e => ⟨errRec ("创建远程目录失败: " ++ e), false, false⟩
        | none =>
          match env.openLocalErr with
          | some e => ⟨errRec ("打开本地文件失败: " ++ e), false, false⟩
          | none =>
            match env.createRemoteErr with
            | some e => ⟨errRec ("创建远程文件失败: " ++ e), false, false⟩
            | none =>
              match uploadRace config env with
              | some e =>
                ⟨{ host := host, type := "upload", status := "error",
                   localFile := localFile, remoteFile := remoteFile,
                   size := pre.fileSize,
                   error := "文件上传失败: " ++ e,
                   sshUser := config.user, duration := env.duration },
                 true, false⟩
              | none =>
                let warn := config.uploadPermission > 0 ∧ env.chmodErr.isSome
                ⟨{ host := host, type := "upload", status := "success",
                   localFile := localFile, remoteFile := remoteFile,
                   size := pre.fileSize, duration := env.duration,
                   sshUser := config.user,
                   timeoutSetting := timeoutSettingOf config.timeout },
                 true, warn⟩

/-- Embedding of `UploadFiles` (lines 276-546): when the invocation-level local `Stat`
fails, the function prints to standard error and returns before any
fan-out — no records at all; otherwise one worker per host. -/
def UploadFiles (hosts : List String) (config : Config) (pre : UploadPre)
    (env : String → UploadEnv) : List UploadEffects :=
  match pre.statErr with
  | some _ => []
  | none => hosts.map (fun host => uploadWorker config pre host (env host))

/-! ### Single-file download (`downloadFile`, lines 796-923) -/

/-- The timeout error synthesized in the download race (line 895). -/
def downloadTimeoutMsg (t : Int) : String :=
  "文件下载超时，超过 " ++ toString t ++ " 秒"

/-- External world of one `downloadFile` call: outcomes of the remote
open, the remote `Stat` (with the size it reports), the local
`os.Create`, and the copy goroutine (`copyErr` is what the goroutine
sends on `done`: a write error, a short write, or a non-EOF read error;
`none` is the clean-EOF success; `copyDoneInTime` says whether `done`
beat the timer; `downloaded` is the byte counter at the moment the race
resolves; `md5` the digest of the copied bytes). -/
structure FileEnv where
  openErr : Option String := none
  statErr : Option String := none
  size : Int := 0
  createErr : Option String := none
  copyErr : Option String := none
  copyDoneInTime : Bool := true
  downloaded : Int := 0
  md5 : String := ""
  deriving Repr, DecidableEq

/-- The download timeout race (lines 890-907): with a positive timeout,
losing the race synthesizes the timeout error and closes the remote read
handle inside the timeout branch; otherwise the worker waits on `done`
unconditionally.  Returns `(downloadError, remoteClosedInTimeoutBranch)`. -/
def downloadRace (config : Config) (env : FileEnv) : Option String × Bool :=
  if config.timeout > 0 then
    if env.copyDoneInTime then (env.copyErr, false)
    else (some (downloadTimeoutMsg config.timeout), true)
  else (env.copyErr, false)

/-- Observable outcome of one `downloadFile` call: its
`(size, md5, error)` return value plus the local-file side effects
(`localCreated`: `os.Create` succeeded; `localRemoved`: the deferred
cleanup called `os.Remove` on the path) and whether the remote read
handle was closed inside the timeout branch. -/
structure FileTransferOut where
  size : Int
  md5 : String
  err : Option String
  localCreated : Bool
  localRemoved : Bool
  remoteClosedInTimeoutBranch : Bool
  deriving Repr, DecidableEq

/-- Embedding of `downloadFile` (lines 796-923): open remote, stat it, create the
local file; from then on a deferred cleanup removes the local file
exactly when the call ends with a non-nil `downloadError`; the raced copy
either delivers the copy goroutine's result or the synthesized timeout;
on success the stat size and finalized digest are returned, on error the
byte counter and the error. -/
def downloadFile (config : Config) (env : FileEnv) : FileTransferOut :=
  match env.openErr with
  | some e => ⟨0, "", some ("打开远程文件失败: " ++ e), false, false, false⟩
  | none =>
    match env.statErr with
    | some e => ⟨0, "", some ("获取远程文件信息失败: " ++ e), false, false, false⟩
    | none =>
      match env.createErr with
      | some e => ⟨0, "", some ("创建本地文件失败: " ++ e), false, false, false⟩
      | none =>
        let race := downloadRace config env
        match race.1 with
        | some e => ⟨env.downloaded, "", some e, true, true, race.2⟩
        | none => ⟨env.size, env.md5, none, true, false, false⟩

/-! ### Directory download (`downloadDirectory`, lines 926-981)

The remote tree below a directory is the `ReadDir` view the worker
observes: each entry is a file (with the external world of its
`downloadFile` call) or a sub-directory with its own entries.  Local
`os.MkdirAll` is modelled as succeeding (the claims under study exercise
remote-side and copy failures); the directories it creates are recorded. -/

/-- One remote directory entry as observed through `ReadDir`. -/
inductive RTree where
  | file (name : String) (fenv : FileEnv)
  | dir (name : String) (children : List RTree)
  deriving Repr

/-- Number of files in a list of entries (recursively). -/
def countFiles : List RTree → Nat
  | [] => 0
  | .file _ _ :: rest => 1 + countFiles rest
  | .dir _ cs :: rest => countFiles cs + countFiles rest

/-- Number of (sub-)directories in a list of entries (recursively). -/
def countDirs : List RTree → Nat
  | [] => 0
  | .file _ _ :: rest => countDirs rest
  | .dir _ cs :: rest => 1 + countDirs cs + countDirs rest

/-- Every file entry's `downloadFile` call succeeds under `config`. -/
def allFilesOk (config : Config) : List RTree → Bool
  | [] => true
  | .file _ fenv :: rest =>
    (downloadFile config fenv).err.isNone && allFilesOk config rest
  | .dir _ cs :: rest => allFilesOk config cs && allFilesOk config rest

/-- What a directory walk produces: the per-file success records emitted
(in traversal order), the local directories created by `os.MkdirAll`
(in creation order), and the error that aborted the walk, if any. -/
structure WalkOut where
  records : List DownloadResult
  dirs : List String
  err : Option String
  deriving Repr, DecidableEq

/-- The per-file success record logged at lines 959-971. -/
def fileRecord (config : Config) (host remoteFilePath localFilePath : String)
    (out : FileTransferOut) (timestamp : String) : DownloadResult :=
  { host := host, type := "download", status := "success",
    remotePath := remoteFilePath, localPath := localFilePath,
    size := out.size, md5 := out.md5, duration := "0s",
    sshUser := config.user, timestamp := timestamp }

/-- The entry loop of `downloadDirectory` (lines 941-978) over the
entries of the directory whose local mirror `localDirPath` was just
created: a sub-directory entry recursively mirrors itself under
`localDirPath` (its own `MkdirAll` first, so directories created before
the failure survive an abort); a file entry runs `downloadFile`, emitting
a success record or aborting the walk with the error (`return err`) — the
failed file and everything after it get no record. -/
def walkEntries (config : Config) (host : String) (timestamp : String)
    (remotePath localDirPath : String) : List RTree → WalkOut
  | [] => ⟨[], [], none⟩
  | .file name fenv :: rest =>
    let out := downloadFile config fenv
    match out.err with
    | some e => ⟨[], [], some e⟩
    | none =>
      let record := fileRecord config host (joinPath remotePath name)
        (joinPath localDirPath name) out timestamp
      let tail := walkEntries config host timestamp remotePath localDirPath rest
      ⟨record :: tail.records, tail.dirs, tail.err⟩
  | .dir name cs :: rest =>
    let subRemote := joinPath remotePath name
    let subLocal := joinPath localDirPath (basePath subRemote)
    let sub := walkEntries config host timestamp subRemote subLocal cs
    match sub.err with
    | some e => ⟨sub.records, subLocal :: sub.dirs, some e⟩
    | none =>
      let tail := walkEntries config host timestamp remotePath localDirPath rest
      ⟨sub.records ++ tail.records, (subLocal :: sub.dirs) ++ tail.dirs, tail.err⟩

/-- Embedding of `downloadDirectory` (lines 926-981): create the local mirror of the
top directory (`Join(localPath, Base(remotePath))`), then walk its
entries. -/
def downloadDirectory (config : Config) (host : String) (timestamp : String)
    (remotePath localPath : String) (entries : List RTree) : WalkOut :=
  let localDirPath := joinPath localPath (basePath remotePath)
  let walk := walkEntries config host timestamp remotePath localDirPath entries
  ⟨walk.records, localDirPath :: walk.dirs, walk.err⟩

/-! ### `DownloadFiles` (lines 572-793) -/

/-- Per-host external world for one download worker: the fail-fast
stages, whether the remote path stats as a directory, the `ReadDir` view
of the tree when it does, and the single `downloadFile` world when it
does not. -/
structure DownloadEnv where
  keyReadErr : Option String := none
  keyParseErr : Option String := none
  dialErr : Option String := none
  sftpErr : Option String := none
  remoteStatErr : Option String := none
  isDir : Bool := false
  entries : List RTree := []
  fileEnv : FileEnv := {}
  duration : String := ""
  timestamp : String := ""
  deriving Repr

/-- The per-host goroutine body of `DownloadFiles` (lines 577-789),
returning the records this host's worker emits: every fail-fast stage
emits one error record; the directory branch emits the walk's per-file
records plus one host-level error record when the walk aborted (and
nothing else when it succeeded); the file branch emits exactly one
success or error record. -/
def downloadWorker (config : Config) (host : String) (env : DownloadEnv) :
    List DownloadResult :=
  let errRec : String → DownloadResult := fun e =>
    { host := host, type := "download", status := "error",
      remotePath := config.remotePath, localPath := config.localPath,
      error := e, sshUser := config.user, timestamp := env.timestamp }
  let authErr : Option String :=
    if config.key ≠ "" then
      match env.keyReadErr with
      | some e => some e
      | none =>
        match env.keyParseErr with
        | some e => some e
        | none => none
    else if config.password ≠ "" then none
    else some "No authentication method provided. Specify either -key or -password"
  match authErr with
  | some e => [errRec e]
  | none =>
    match env.dialErr with
    | some e => [errRec e]
    | none =>
      match env.sftpErr with
      | some e => [errRec e]
      | none =>
        match env.remoteStatErr with
        | some e => [errRec ("远程路径不存在或无法访问: " ++ e)]
        | none =>
          if env.isDir then
            let walk := downloadDirectory config host env.timestamp
              config.remotePath config.localPath env.entries
            match walk.err with
            | some e =>
              walk.records ++
                [{ host := host, type := "download", status := "error",
                   remotePath := config.remotePath,
                   localPath := config.localPath,
                   error := "下载目录失败: " ++ e,
                   sshUser := config.user, duration := env.duration,
                   timestamp := env.timestamp }]
            | none => walk.records
          else
            let localFilePath :=
              joinPath config.localPath (basePath config.remotePath)
            let out := downloadFile config env.fileEnv
            match out.err with
            | some e =>
              [{ host := host, type := "download", status := "error",
                 remotePath := config.remotePath, localPath := localFilePath,
                 size := out.size, error := "下载文件失败: " ++ e,
                 sshUser := config.user, duration := env.duration,
                 timestamp := env.timestamp }]
            | none =>
              [{ host := host, type := "download", status := "success",
                 remotePath := config.remotePath, localPath := localFilePath,
                 size := out.size, md5 := out.md5, duration := env.duration,
                 sshUser := config.user, timestamp := env.timestamp }]

/-- Embedding of `DownloadFiles` (lines 572-793): one goroutine per host, joined by
`wg.Wait`; the invocation's records are the concatenation of the per-host
workers' records. -/
def DownloadFiles (hosts : List String) (config : Config)
    (env : String → DownloadEnv) : List (List DownloadResult) :=
  hosts.map (fun host => downloadWorker config host (env host))

/-! ## Supporting lemmas -/

/-- A specification-side reading of the escaping rule: each character of
the command maps to itself, except that a single quote maps to the
four-character sequence quote backslash quote quote. -/
def escSpecClaim (cmd : String) : String :=
  String.mk (cmd.data.flatMap (fun c => if c = squoteC then escSeq.data else [c]))

/-! ### Concrete fixtures for witnesses and counterexamples -/

/-- A representative configuration (password auth, five-second timeout). -/
def cfg0 : Config :=
  { port := 22, user := "root", key := "", password := "pw", cmd := "ls",
    timeout := 5, execUser := "", uploadFile := "/tmp/a.txt",
    uploadDir := "/data", uploadPermission := 420,
    remotePath := "/r/f.txt", localPath := "/l", jsonOutput := false }

/-- A command containing embedded single quotes. -/
def sampleCmd : String := "echo " ++ squote ++ "hi" ++ squote

/-- A two-file directory listing whose first file transfer fails. -/
def entries6 : List RTree :=
  [RTree.file "a" { openErr := some "fail" }, RTree.file "b" {}]

/-- A fully healthy listing: one file at top level, one inside a
sub-directory. -/
def entries6ok : List RTree :=
  [RTree.file "a" {}, RTree.dir "d" [RTree.file "b" {}]]

theorem escape_foldr_eq_flatMap (cs : List Char) :
    cs.foldr (fun c acc => if c = squoteC then escSeq.data ++ acc else c :: acc) [] =
      cs.flatMap (fun c => if c = squoteC then escSeq.data else [c]) := by
  induction cs with
  | nil => rfl
  | cons c cs ih =>
    by_cases h : c = squoteC <;> simp [List.flatMap_cons, h, ih]

theorem escapeCommand_eq_escSpecClaim (cmd : String) :
    escapeCommand cmd = escSpecClaim cmd := by
  unfold escapeCommand escSpecClaim
  rw [escape_foldr_eq_flatMap]

theorem goSplitChar_ne_nil (sep : Char) (cs : List Char) :
    goSplitChar sep cs ≠ [] := by
  cases cs with
  | nil => simp [goSplitChar]
  | cons c rest =>
    unfold goSplitChar
    by_cases h : c = sep
    · simp [h]
    · simp only [h, if_neg, if_false]
      cases hgs : goSplitChar sep rest <;> simp [consHead]

theorem goSplitChar_no_sep (sep : Char) (cs : List Char) (h : sep ∉ cs) :
    goSplitChar sep cs = [cs] := by
  induction cs with
  | nil => rfl
  | cons c rest ih =>
    have hc : c ≠ sep := fun hcs => h (hcs ▸ List.mem_cons_self c rest)
    have hrest : sep ∉ rest := fun hm => h (List.mem_cons_of_mem c hm)
    simp [goSplitChar, hc, ih hrest, consHead]

theorem goSplitChar_append (sep : Char) (a b : List Char) (h : sep ∉ a) :
    goSplitChar sep (a ++ sep :: b) = a :: goSplitChar sep b := by
  induction a with
  | nil => simp [goSplitChar]
  | cons c rest ih =>
    have hc : c ≠ sep := fun hcs => h (hcs ▸ List.mem_cons_self c rest)
    have hrest : sep ∉ rest := fun hm => h (List.mem_cons_of_mem c hm)
    simp [goSplitChar, hc, ih hrest, consHead]

theorem joinSegs_cons_cons (s t : String) (rest : List String) :
    joinSegs (s :: t :: rest) = s ++ "/" ++ joinSegs (t :: rest) := by
  rfl

theorem joinSegs_mk_cons (c : Char) (p : List Char) (rest : List String) :
    joinSegs (String.mk (c :: p) :: rest) =
      String.mk [c] ++ joinSegs (String.mk p :: rest) := by
  cases rest with
  | nil =>
    apply String.ext
    simp [joinSegs, String.data_append]
  | cons t ts =>
    apply String.ext
    simp [joinSegs_cons_cons, String.data_append]

/-- Splitting on slashes and rejoining with slashes is the identity: the
string the model hands to `Stat`/`Mkdir` is the original path. -/
theorem joinSegs_goSplit (cs : List Char) :
    joinSegs ((goSplitChar '/' cs).map String.mk) = String.mk cs := by
  induction cs with
  | nil => rfl
  | cons c rest ih =>
    by_cases h : c = '/'
    · subst h
      rw [show goSplitChar '/' ('/' :: rest) = [] :: goSplitChar '/' rest from by
        simp [goSplitChar]]
      obtain ⟨p, ps, hps⟩ : ∃ p ps, goSplitChar '/' rest = p :: ps := by
        cases hgs : goSplitChar '/' rest with
        | nil => exact absurd hgs (goSplitChar_ne_nil _ _)
        | cons p ps => exact ⟨p, ps, rfl⟩
      rw [hps] at ih ⊢
      apply String.ext
      simp only [List.map_cons, joinSegs_cons_cons, String.data_append]
      have := congrArg String.data ih
      simp only [joinSegs] at this ⊢
      simpa [String.data_append] using congrArg (fun l => '/' :: l) this
    · rw [show goSplitChar '/' (c :: rest) = consHead c (goSplitChar '/' rest) from by
        simp [goSplitChar, h]]
      obtain ⟨p, ps, hps⟩ : ∃ p ps, goSplitChar '/' rest = p :: ps := by
        cases hgs : goSplitChar '/' rest with
        | nil => exact absurd hgs (goSplitChar_ne_nil _ _)
        | cons p ps => exact ⟨p, ps, rfl⟩
      rw [hps] at ih ⊢
      simp only [consHead, List.map_cons] at ih ⊢
      rw [joinSegs_mk_cons]
      apply String.ext
      have := congrArg String.data ih
      simpa [String.data_append] using congrArg (fun l => c :: l) this

theorem mk_data (s : String) : String.mk s.data = s := rfl

theorem createRemoteDirSegs_contains_self (fs segs : List String) :
    joinSegs segs ∈ (createRemoteDirSegs fs segs).1 := by
  rw [createRemoteDirSegs]
  by_cases h : joinSegs segs ∈ fs
  · simp [h]
  · simp [h]

theorem createRemoteDirSegs_calls_fresh (fs segs : List String) :
    ∀ d ∈ (createRemoteDirSegs fs segs).2, d ∉ fs := by
  rw [createRemoteDirSegs]
  by_cases hc : joinSegs segs ∈ fs
  · simp [hc]
  · have hcB : ¬(fs.contains (joinSegs segs) = true) := by simpa using hc
    by_cases hg : segs.dropLast ≠ [] ∧ segs.dropLast ≠ [""]
    · have ih := createRemoteDirSegs_calls_fresh fs segs.dropLast
      intro d hd
      rw [if_neg hcB] at hd
      simp only [dif_pos hg] at hd
      rcases (by simpa using hd :
          d ∈ (createRemoteDirSegs fs segs.dropLast).2 ∨ d = joinSegs segs) with h1 | h2
      · exact ih d h1
      · subst h2; exact hc
    · intro d hd
      rw [if_neg hcB] at hd
      simp only [dif_neg hg] at hd
      have hd' : d = joinSegs segs := by simpa using hd
      subst hd'; exact hc
  termination_by segs.length
  decreasing_by
    have hne : segs ≠ [] := fun hs => hg.1 (by simp [hs])
    have hpos : 0 < segs.length := List.length_pos.mpr hne
    simp only [List.length_dropLast]
    omega

theorem createRemoteDir_idem_run (fs : List String) (p : String) :
    createRemoteDir (createRemoteDir fs p).1 p = ((createRemoteDir fs p).1, []) := by
  unfold createRemoteDir
  rw [createRemoteDirSegs]
  simp [createRemoteDirSegs_contains_self]

theorem createRemoteDir_exists_noop (fs : List String) (p : String)
    (h : trimSlashSuffix p ∈ fs) :
    createRemoteDir fs p = (fs, []) := by
  unfold createRemoteDir
  rw [createRemoteDirSegs]
  have heq : joinSegs ((goSplitChar '/' (trimSlashSuffix p).data).map String.mk)
      = trimSlashSuffix p := by
    rw [joinSegs_goSplit, mk_data]
  simp [heq, h]

theorem createRemoteDir_leaf_exists (fs : List String) (p : String) :
    trimSlashSuffix p ∈ (createRemoteDir fs p).1 := by
  unfold createRemoteDir
  have heq : joinSegs ((goSplitChar '/' (trimSlashSuffix p).data).map String.mk)
      = trimSlashSuffix p := by
    rw [joinSegs_goSplit, mk_data]
  simpa [heq] using
    createRemoteDirSegs_contains_self fs
      ((goSplitChar '/' (trimSlashSuffix p).data).map String.mk)

theorem cmdWorker_host (config : Config) (host : String) (env : CmdEnv) :
    (cmdWorker config host env).record.host = host := by
  unfold cmdWorker
  repeat' split <;> try rfl

theorem uploadWorker_host (config : Config) (pre : UploadPre) (host : String)
    (env : UploadEnv) : (uploadWorker config pre host env).record.host = host := by
  unfold uploadWorker
  repeat' split <;> try rfl

theorem downloadWorker_file_one (config : Config) (host : String) (env : DownloadEnv)
    (h : env.isDir = false) :
    (downloadWorker config host env).length = 1 ∧
      ∀ r ∈ downloadWorker config host env, r.host = host := by
  unfold downloadWorker
  simp only [h]
  repeat' split
  all_goals simp_all

theorem ExecuteCommands_hosts (hosts : List String) (config : Config)
    (env : String → CmdEnv) :
    (ExecuteCommands hosts config env).map (fun eff => eff.record.host) = hosts := by
  simp [ExecuteCommands, List.map_map, Function.comp_def, cmdWorker_host]

theorem UploadFiles_hosts (hosts : List String) (config : Config) (pre : UploadPre)
    (env : String → UploadEnv) (h : pre.statErr = none) :
    (UploadFiles hosts config pre env).map (fun eff => eff.record.host) = hosts := by
  simp [UploadFiles, h, List.map_map, Function.comp_def, uploadWorker_host]

theorem DownloadFiles_file_hosts (hosts : List String) (config : Config)
    (env : String → DownloadEnv) (h : ∀ x, (env x).isDir = false) :
    ((DownloadFiles hosts config env).flatten).map (fun r => r.host) = hosts := by
  induction hosts with
  | nil => simp [DownloadFiles]
  | cons a hs ih =>
    obtain ⟨hlen, hhost⟩ := downloadWorker_file_one config a (env a) (h a)
    obtain ⟨r, hr⟩ := List.length_eq_one.mp hlen
    have hra : r.host = a := hhost r (by simp [hr])
    simp only [DownloadFiles, List.map_cons, List.flatten_cons, List.map_append] at ih ⊢
    rw [hr]
    simpa [hra] using ih

theorem walkEntries_all_ok :
    ∀ (config : Config) (host ts : String) (entries : List RTree) (rp lp : String),
    allFilesOk config entries = true →
    (walkEntries config host ts rp lp entries).records.length = countFiles entries
     ∧ (walkEntries config host ts rp lp entries).err = none
     ∧ (walkEntries config host ts rp lp entries).dirs.length = countDirs entries
  | config, host, ts, [], rp, lp, hall => by
    simp [walkEntries, countFiles, countDirs]
  | config, host, ts, .file name fenv :: rest, rp, lp, hall => by
    have hsplit : (downloadFile config fenv).err = none ∧ allFilesOk config rest = true := by
      simpa [allFilesOk] using hall
    have ih := walkEntries_all_ok config host ts rest rp lp hsplit.2
    simp [walkEntries, hsplit.1, countFiles, countDirs, ih.1, ih.2.1, ih.2.2]
    omega
  | config, host, ts, .dir name cs :: rest, rp, lp, hall => by
    have hsplit : allFilesOk config cs = true ∧ allFilesOk config rest = true := by
      simpa [allFilesOk] using hall
    have ihcs := walkEntries_all_ok config host ts cs (joinPath rp name)
      (joinPath lp (basePath (joinPath rp name))) hsplit.1
    have ihrest := walkEntries_all_ok config host ts rest rp lp hsplit.2
    simp [walkEntries, countFiles, countDirs, ihcs.1, ihcs.2.1, ihcs.2.2,
      ihrest.1, ihrest.2.1, ihrest.2.2]
    omega

theorem parseHostPort_no_colon (host : String) (dflt : Int) (h : ':' ∉ host.data) :
    parseHostPort host dflt = (host, dflt) := by
  unfold parseHostPort splitColon
  rw [goSplitChar_no_sep ':' host.data h]
  simp [mk_data]

theorem colon_data : (":" : String).data = [':'] := rfl

theorem parseHostPort_addr_rest (addr rest : String) (dflt : Int)
    (ha : ':' ∉ addr.data) (hr : ':' ∉ rest.data) :
    parseHostPort (addr ++ ":" ++ rest) dflt = (addr, (atoi rest).getD dflt) := by
  have hdata : (addr ++ ":" ++ rest).data = addr.data ++ ':' :: rest.data := by
    rw [String.data_append, String.data_append, colon_data]
    simp
  unfold parseHostPort splitColon
  rw [hdata, goSplitChar_append ':' addr.data rest.data ha,
    goSplitChar_no_sep ':' rest.data hr]
  cases hat : atoi rest <;> simp [mk_data, hat]

/-! ## Claims -/

/-- C2: a single-file download in which the local destination file was
created and the transfer then ends in a timeout or any copy/write error
deletes the partially written local file before returning the error, so a
file remains at the target path exactly when the transfer succeeded. -/
theorem c2_no_partial_artifact (config : Config) (env : FileEnv) :
    ((downloadFile config env).localCreated = true
      ∧ (downloadFile config env).localRemoved = false)
      ↔ (downloadFile config env).err = none := by
  unfold downloadFile
  rcases h1 : env.openErr <;> rcases h2 : env.statErr <;>
    rcases h3 : env.createErr <;> rcases h4 : (downloadRace config env).1 <;>
    simp_all

/-- C5: with a non-empty execution user different from the connection
user, the executed command (and the record's `ActualCmd`) is the
identity-switch wrapper around the single-quote-escaped command, where
the escaping replaces each single quote by the four-character sequence
quote backslash quote quote; with an empty or identical execution user
the command is unchanged. -/
theorem c5_identity_switch_wrapper (config : Config) (host : String) (env : CmdEnv) :
    (config.execUser ≠ "" → config.execUser ≠ config.user →
       cmdToExecute config
         = "su - " ++ config.execUser ++ " -c " ++ squote
             ++ escSpecClaim config.cmd ++ squote)
    ∧ (config.execUser = "" ∨ config.execUser = config.user →
       cmdToExecute config = config.cmd)
    ∧ (config.key = "" → config.password ≠ "" → env.dialErr = none →
       env.sessionErr = none →
       (cmdWorker config host env).record.actualCmd = cmdToExecute config) := by
  refine ⟨?_, ?_, ?_⟩
  · intro h1 h2
    simp [cmdToExecute, h1, h2, escapeCommand_eq_escSpecClaim]
  · intro h
    unfold cmdToExecute
    rcases h with h | h <;> simp [h]
  · intro hk hp h1 h2
    unfold cmdWorker
    rcases hs : env.startErr <;> simp [hk, hp, h1, h2, hs]

/-- C5 witness: a command with embedded quotes run as user dm over a root
connection is wrapped and escaped. -/
theorem c5_witness :
    cmdToExecute { cfg0 with execUser := "dm", cmd := sampleCmd }
      = "su - dm -c " ++ squote ++ escSpecClaim sampleCmd ++ squote
    ∧ (cmdWorker { cfg0 with execUser := "dm", cmd := sampleCmd } "h" {}).record.actualCmd
      = cmdToExecute { cfg0 with execUser := "dm", cmd := sampleCmd } :=
  ⟨(c5_identity_switch_wrapper { cfg0 with execUser := "dm", cmd := sampleCmd } "h" {}).1
      (by decide) (by decide),
   (c5_identity_switch_wrapper { cfg0 with execUser := "dm", cmd := sampleCmd } "h" {}).2.2
      rfl (by decide) rfl rfl⟩

/-- C7: `createRemoteDir` is idempotent — an existing path is a success
without any `Mkdir` call; after any run the (trimmed) target path exists;
every `Mkdir` call is for a path that was missing; and a second run on
the same path succeeds, changes nothing and issues no `Mkdir`. -/
theorem c7_createRemoteDir_idempotent :
    (∀ (fs : List String) (p : String),
       trimSlashSuffix p ∈ fs → createRemoteDir fs p = (fs, []))
    ∧ (∀ (fs : List String) (p : String),
       trimSlashSuffix p ∈ (createRemoteDir fs p).1)
    ∧ (∀ (fs : List String) (p d : String),
       d ∈ (createRemoteDir fs p).2 → d ∉ fs)
    ∧ (∀ (fs : List String) (p : String),
       createRemoteDir (createRemoteDir fs p).1 p = ((createRemoteDir fs p).1, [])) :=
  ⟨createRemoteDir_exists_noop, createRemoteDir_leaf_exists,
   fun fs p d hd => createRemoteDirSegs_calls_fresh fs _ d hd,
   createRemoteDir_idem_run⟩

/-- C7 witness: an existing directory is a no-op. -/
theorem c7_witness :
    createRemoteDir ["/data"] "/data/" = (["/data"], []) :=
  c7_createRemoteDir_idempotent.1 ["/data"] "/data/" (by decide)

/-- C10 counterexample: the host string takes the form address colon rest
with rest not parsing as a decimal integer, yet the worker does not fall
back to the default port 2022 — it parses the text between the first two
colons and dials port 22. -/
theorem c10_counterexample :
    atoi "22:x" = none ∧ (parseHostPort "h:22:x" 2022).2 = 22
      ∧ (22 : Int) ≠ 2022 := by
  decide

/-- C10 (amended): the port override is decided by the text between the
first and the second colon only.  A host with no colon keeps the default
port; for a host of the form address colon rest with colon-free rest, an
unparseable rest silently keeps the default and a parseable rest
overrides it; the hostname dialed is always the text before the first
colon. -/
theorem c10_port_fallback (host addr rest : String) (dflt : Int) :
    (':' ∉ host.data → parseHostPort host dflt = (host, dflt))
    ∧ (':' ∉ addr.data → ':' ∉ rest.data →
       parseHostPort (addr ++ ":" ++ rest) dflt = (addr, (atoi rest).getD dflt)) :=
  ⟨fun h => parseHostPort_no_colon host dflt h,
   fun ha hr => parseHostPort_addr_rest addr rest dflt ha hr⟩

/-- C10 witness: a malformed port falls back to the default 2022, a
numeric port overrides it, and a colon-free host keeps the default. -/
theorem c10_witness :
    parseHostPort ("db1" ++ ":" ++ "abc") 2022 = ("db1", (atoi "abc").getD 2022)
    ∧ parseHostPort ("db1" ++ ":" ++ "2200") 2022 = ("db1", (atoi "2200").getD 2022)
    ∧ parseHostPort "db1" 2022 = ("db1", 2022) :=
  ⟨(c10_port_fallback "" "db1" "abc" 2022).2 (by decide) (by decide),
   (c10_port_fallback "" "db1" "2200" 2022).2 (by decide) (by decide),
   (c10_port_fallback "db1" "" "" 2022).1 (by decide)⟩

/-- C1 counterexample: an upload invocation over the non-empty host list
with one host produces zero ResultRecords, not one, when the
invocation-level local-file check fails — the function returns before any
per-host fan-out. -/
theorem c1_counterexample :
    (UploadFiles ["h1"] cfg0 { statErr := some "no such file" } (fun _ => {})).length
      ≠ (["h1"] : List String).length := by
  decide

/-- C1 (amended): whenever the invocation reaches the per-host fan-out,
every operation produces exactly one record per input host, in input
order, under every per-host success/failure mix: unconditionally for
command execution; for upload provided the invocation-level local-file
precheck passed; for download provided each host's remote path stats as
a regular file (directory downloads instead emit one record per file). -/
theorem c1_one_record_per_host :
    (∀ (hosts : List String) (config : Config) (env : String → CmdEnv),
       (ExecuteCommands hosts config env).map (fun eff => eff.record.host) = hosts)
    ∧ (∀ (hosts : List String) (config : Config) (pre : UploadPre)
         (env : String → UploadEnv), pre.statErr = none →
       (UploadFiles hosts config pre env).map (fun eff => eff.record.host) = hosts)
    ∧ (∀ (hosts : List String) (config : Config) (env : String → DownloadEnv),
       (∀ x, (env x).isDir = false) →
       ((DownloadFiles hosts config env).flatten).map (fun r => r.host) = hosts) :=
  ⟨ExecuteCommands_hosts, UploadFiles_hosts, DownloadFiles_file_hosts⟩

/-- C1 witness: a two-host upload with a passing precheck and a one-host
file download each yield one record per host, hosts preserved in order. -/
theorem c1_witness :
    (UploadFiles ["h1", "h2"] cfg0 { fileSize := 3 } (fun _ => {})).map
        (fun eff => eff.record.host) = ["h1", "h2"]
    ∧ ((DownloadFiles ["h1"] cfg0 (fun _ => {})).flatten).map
        (fun r => r.host) = ["h1"] :=
  ⟨c1_one_record_per_host.2.1 ["h1", "h2"] cfg0 { fileSize := 3 } (fun _ => {}) rfl,
   c1_one_record_per_host.2.2 ["h1"] cfg0 (fun _ => {}) (fun _ => rfl)⟩

/-- C3: with timeout zero no timer is armed — each of the three races
returns the work's own outcome unconditionally (and no cancellation
signal fires), so no timeout error can be produced; with a positive
timeout a timer is armed and the race yields the work's outcome when it
finished first and the synthesized timeout error otherwise. -/
theorem c3_timeout_zero_unbounded (config : Config) (ce : CmdEnv) (ue : UploadEnv)
    (fe : FileEnv) :
    (config.timeout = 0 →
       cmdRace config ce = (ce.waitErr, false)
       ∧ uploadRace config ue = ue.copyErr
       ∧ downloadRace config fe = (fe.copyErr, false))
    ∧ (0 < config.timeout →
       ((cmdRace config ce).1
           = if ce.doneInTime then ce.waitErr else some (cmdTimeoutMsg config.timeout))
       ∧ (uploadRace config ue
           = if ue.copyDoneInTime then ue.copyErr
             else some (uploadTimeoutMsg config.timeout))
       ∧ ((downloadRace config fe).1
           = if fe.copyDoneInTime then fe.copyErr
             else some (downloadTimeoutMsg config.timeout))) := by
  constructor
  · intro h0
    simp [cmdRace, uploadRace, downloadRace, h0]
  · intro hpos
    refine ⟨?_, ?_, ?_⟩
    · cases hd : ce.doneInTime <;> simp [cmdRace, hpos, hd]
    · cases hd : ue.copyDoneInTime <;> simp [uploadRace, hpos, hd]
    · cases hd : fe.copyDoneInTime <;> simp [downloadRace, hpos, hd]

/-- C3 witness: with timeout zero a slow worker (done channel never fires
in time) still returns the work's result; on the same slow worker a
two-second timeout produces the timeout error. -/
theorem c3_witness :
    cmdRace { cfg0 with timeout := 0 } { doneInTime := false } = (none, false)
    ∧ (cmdRace { cfg0 with timeout := 2 } { doneInTime := false }).1
        = some (cmdTimeoutMsg 2) :=
  ⟨((c3_timeout_zero_unbounded { cfg0 with timeout := 0 }
      { doneInTime := false } {} {}).1 rfl).1,
   by
    have h := ((c3_timeout_zero_unbounded { cfg0 with timeout := 2 }
      { doneInTime := false } {} {}).2 (by decide)).1
    simpa using h⟩

/-- C4: whenever a positive deadline expires before the work completes,
each worker synthesizes an error carrying the configured duration and a
best-effort cancellation signal reaches the remote side: SIGTERM for
command sessions, the (deferred) close of the created remote file handle
for uploads, and the in-branch close of the remote read handle for
downloads. -/
theorem c4_timeout_cancellation (config : Config) (ce : CmdEnv) (ue : UploadEnv)
    (pre : UploadPre) (host : String) (fe : FileEnv)
    (hpos : 0 < config.timeout) :
    (ce.doneInTime = false →
       cmdRace config ce
         = (some ("command timed out after " ++ toString config.timeout ++ " seconds"),
            true))
    ∧ (ue.copyDoneInTime = false →
       config.key = "" → config.password ≠ "" → ue.dialErr = none →
       ue.sftpErr = none → ue.mkdirErr = none → ue.openLocalErr = none →
       ue.createRemoteErr = none →
       (uploadWorker config pre host ue).record.error
           = "文件上传失败: "
               ++ ("文件上传超时，超过 " ++ toString config.timeout ++ " 秒")
       ∧ (uploadWorker config pre host ue).remoteHandleClosed = true
       ∧ (uploadWorker config pre host ue).record.status = "error")
    ∧ (fe.copyDoneInTime = false →
       downloadRace config fe
         = (some ("文件下载超时，超过 " ++ toString config.timeout ++ " 秒"), true)) := by
  refine ⟨?_, ?_, ?_⟩
  · intro hd
    simp [cmdRace, hpos, hd, cmdTimeoutMsg]
  · intro hd hk hp h1 h2 h3 h4 h5
    unfold uploadWorker
    simp [hk, hp, h1, h2, h3, h4, h5, uploadRace, hpos, hd, uploadTimeoutMsg]
  · intro hd
    simp [downloadRace, hpos, hd, downloadTimeoutMsg]

/-- C4 witness: a three-second deadline expiring mid-command sends
SIGTERM with the duration-carrying message, and an expiring upload closes
the remote handle with an error record. -/
theorem c4_witness :
    cmdRace { cfg0 with timeout := 3 } { doneInTime := false }
      = (some ("command timed out after " ++ toString (3 : Int) ++ " seconds"), true)
    ∧ (uploadWorker { cfg0 with timeout := 3 } { fileSize := 9 } "h1"
         { copyDoneInTime := false }).remoteHandleClosed = true :=
  ⟨(c4_timeout_cancellation { cfg0 with timeout := 3 } { doneInTime := false }
      {} { fileSize := 9 } "h1" {} (by decide)).1 rfl,
   ((c4_timeout_cancellation { cfg0 with timeout := 3 } {}
      { copyDoneInTime := false } { fileSize := 9 } "h1" {} (by decide)).2.1
      rfl rfl (by decide) rfl rfl rfl rfl rfl).2.1⟩

/-- C6 counterexample: a directory listing with two files whose first
file transfer fails produces zero per-file records, not two — the walk
aborts at the first error, so the failing file and everything after it
get no record. -/
theorem c6_counterexample :
    (downloadDirectory cfg0 "h" "ts" "/r" "/l" entries6).records.length
      ≠ countFiles entries6 := by
  simp [downloadDirectory, entries6, walkEntries, downloadFile, countFiles, cfg0]

/-- C6 (amended): when every file in the remote tree downloads
successfully, a directory download of a tree with N files and M
sub-directories emits exactly N per-file success records, finishes
without error, and creates the top-level local mirror directory plus all
M sub-directories; on the first failing file the walk aborts instead,
the failed and remaining files getting no per-file records. -/
theorem c6_dir_download (config : Config) (host ts rp lp : String)
    (entries : List RTree) (hall : allFilesOk config entries = true) :
    (downloadDirectory config host ts rp lp entries).records.length
        = countFiles entries
    ∧ (downloadDirectory config host ts rp lp entries).err = none
    ∧ (downloadDirectory config host ts rp lp entries).dirs.length
        = 1 + countDirs entries := by
  obtain ⟨h1, h2, h3⟩ := walkEntries_all_ok config host ts entries rp
    (joinPath lp (basePath rp)) hall
  simp [downloadDirectory, h1, h2, h3]
  omega

/-- C6 witness: a healthy tree with two files and one sub-directory
yields two records and two created directories (top mirror plus one). -/
theorem c6_witness :
    (downloadDirectory cfg0 "h" "ts" "/r" "/l" entries6ok).records.length
        = countFiles entries6ok
    ∧ (downloadDirectory cfg0 "h" "ts" "/r" "/l" entries6ok).dirs.length
        = 1 + countDirs entries6ok :=
  ⟨(c6_dir_download cfg0 "h" "ts" "/r" "/l" entries6ok
      (by simp [allFilesOk, entries6ok, downloadFile, downloadRace, cfg0])).1,
   (c6_dir_download cfg0 "h" "ts" "/r" "/l" entries6ok
      (by simp [allFilesOk, entries6ok, downloadFile, downloadRace, cfg0])).2.2⟩

/-- C8: an upload whose stream copy completes without error emits a
success record carrying the captured byte size and duration, even when
the subsequent chmod fails — the chmod failure only raises the warning
flag, never an error-status record. -/
theorem c8_chmod_failure_nonfatal (config : Config) (pre : UploadPre)
    (host : String) (ue : UploadEnv) (hk : config.key = "")
    (hp : config.password ≠ "") (h1 : ue.dialErr = none) (h2 : ue.sftpErr = none)
    (h3 : ue.mkdirErr = none) (h4 : ue.openLocalErr = none)
    (h5 : ue.createRemoteErr = none) (hcopy : uploadRace config ue = none) :
    (uploadWorker config pre host ue).record.status = "success"
    ∧ (uploadWorker config pre host ue).record.size = pre.fileSize
    ∧ (uploadWorker config pre host ue).record.duration = ue.duration
    ∧ (uploadWorker config pre host ue).record.error = ""
    ∧ ((uploadWorker config pre host ue).chmodWarning = true
        ↔ (config.uploadPermission > 0 ∧ ue.chmodErr.isSome = true)) := by
  unfold uploadWorker
  simp [hk, hp, h1, h2, h3, h4, h5, hcopy]

/-- C8 witness: a completed copy with a failing chmod still yields a
success record with the file's size, and the warning flag is set. -/
theorem c8_witness :
    (uploadWorker cfg0 { fileSize := 7 } "h1"
        { chmodErr := some "permission denied", duration := "1s" }).record.status
      = "success"
    ∧ (uploadWorker cfg0 { fileSize := 7 } "h1"
        { chmodErr := some "permission denied", duration := "1s" }).record.size = 7
    ∧ (uploadWorker cfg0 { fileSize := 7 } "h1"
        { chmodErr := some "permission denied", duration := "1s" }).chmodWarning
      = true := by
  have h := c8_chmod_failure_nonfatal cfg0 { fileSize := 7 } "h1"
    { chmodErr := some "permission denied", duration := "1s" }
    rfl (by decide) rfl rfl rfl rfl rfl (by decide)
  exact ⟨h.1, h.2.1, h.2.2.2.2.mpr ⟨by decide, rfl⟩⟩

/-- C9: the record a host's worker produces depends only on that host and
its own external world: changing any other host's outcomes (auth
failure, dial failure, timeout elsewhere) leaves this host's record
unchanged, and every host still produces its record. -/
theorem c9_failure_isolation (config : Config) (hosts : List String)
    (env1 env2 : String → CmdEnv) (i : Nat)
    (h : env1 (hosts.getD i "") = env2 (hosts.getD i "")) :
    (ExecuteCommands hosts config env1).length = hosts.length
    ∧ (ExecuteCommands hosts config env1)[i]?
        = (ExecuteCommands hosts config env2)[i]? := by
  refine ⟨by simp [ExecuteCommands], ?_⟩
  rcases hi : hosts[i]? with _ | a
  · simp [ExecuteCommands, hi]
  · have ha : hosts.getD i "" = a := by
      simp [List.getD_eq_getElem?_getD, hi]
    rw [ha] at h
    simp [ExecuteCommands, hi, h]

/-- C9 witness: with a dial failure injected on the second host only, the
first host's record is identical to the all-healthy run, and both hosts
still produce records. -/
theorem c9_witness :
    (ExecuteCommands ["good", "bad"] cfg0 (fun _ => {})).length = 2
    ∧ (ExecuteCommands ["good", "bad"] cfg0 (fun _ => {}))[0]?
        = (ExecuteCommands ["good", "bad"] cfg0
            (fun x => if x = "bad" then { dialErr := some "connection refused" }
                      else {}))[0]? :=
  have h := c9_failure_isolation cfg0 ["good", "bad"] (fun _ => {})
    (fun x => if x = "bad" then { dialErr := some "connection refused" } else {})
    0 (by decide)
  ⟨h.1, h.2⟩

end Dmshx
